import Mathlib

/-!
Verification of the oppai-rs neural-network model definitions.

This file shallowly embeds the two PyTorch model-definition variants of the
repository over the real numbers:

* `src/zero-torch/model.py` — the masked residual tower (`Model`) with
  `NormMask` layers, global-pooling bias branches, a masked log-softmax
  policy head and a tanh value head;
* `src/zero-torch/oppai_net.py` — the legacy small tower (`OppaiNet`) with
  batch-normalization, dropout and log-softmax / tanh heads.

Tensors of shape (channels, height, width) are embedded as functions
`Fin c → Fin h → Fin w → ℝ`; a batch adds a leading `Fin b` index.  The
exact (erf-based) GELU that `nn.GELU()` computes is defined through the
Gauss error function, itself defined by an interval integral.  Stochastic
dropout (`F.dropout`) is embedded by passing the Bernoulli keep-mask
explicitly, and the module `training` flag of `nn.Module` is passed
explicitly where a layer's behaviour depends on it (batch normalization).
Side effects of `train_on` (printing, gradient zeroing, backpropagation,
the optimizer step) are embedded as an explicit event trace.
-/

/-- A single-sample feature map with `c` channels on an `h × w` grid
(PyTorch layout `(channels, height, width)`), valued in `ℝ`. -/
def Tensor (c h w : ℕ) : Type := Fin c → Fin h → Fin w → ℝ

/-- Zero-padded lookup: reads `x ch i j` when `(i, j)` is inside the grid and
returns `0` outside.  This is the padding semantics of `nn.Conv2d` with
zero padding. -/
noncomputable def padGet {c h w : ℕ} (x : Tensor c h w) (ch : Fin c) (i j : ℤ) : ℝ :=
  if hij : 0 ≤ i ∧ i < (h : ℤ) ∧ 0 ≤ j ∧ j < (w : ℤ) then
    x ch ⟨i.toNat, by omega⟩ ⟨j.toNat, by omega⟩
  else 0

/-- Learnable parameters of `nn.Conv2d(ci, co, k)`: a `(co, ci, k, k)` weight
tensor and a `co`-vector bias. -/
structure ConvParams (ci co k : ℕ) where
  weight : Fin co → Fin ci → Fin k → Fin k → ℝ
  bias : Fin co → ℝ

/-- `nn.Conv2d` with stride 1 and `padding='same'` (used with odd kernel
sizes 1 and 3 in the source, where the symmetric padding is `k / 2`):
`out o i j = bias o + Σ_{c,a,b} weight o c a b * x c (i + a - k/2) (j + b - k/2)`
with zero padding outside the grid. -/
noncomputable def conv2dSame {ci h w : ℕ} {co k : ℕ} (p : ConvParams ci co k)
    (x : Tensor ci h w) : Tensor co h w :=
  fun o i j => p.bias o + ∑ c, ∑ a, ∑ b,
    p.weight o c a b * padGet x c ((i : ℤ) + (a : ℤ) - (k / 2 : ℕ)) ((j : ℤ) + (b : ℤ) - (k / 2 : ℕ))

/-- `nn.Conv2d` with stride 1 and no padding (the default `padding = 0`,
used by `conv3` and `conv4` of `OppaiNet`): the output grid shrinks by
`k - 1` in each direction. -/
noncomputable def conv2dValid {ci h w : ℕ} {co k : ℕ} (p : ConvParams ci co k)
    (x : Tensor ci h w) : Tensor co (h - (k - 1)) (w - (k - 1)) :=
  fun o i j => p.bias o + ∑ c, ∑ a : Fin k, ∑ b : Fin k,
    p.weight o c a b * x c ⟨i.val + a.val, by omega⟩ ⟨j.val + b.val, by omega⟩

/-- The Gauss error function, `erf x = (2 / √π) ∫ t in 0..x, exp (-t²)`. -/
noncomputable def erf (x : ℝ) : ℝ :=
  (2 / Real.sqrt Real.pi) * ∫ t in (0 : ℝ)..x, Real.exp (-(t ^ 2))

/-- The exact GELU activation computed by `nn.GELU()` (default
`approximate='none'`): `gelu x = x * Φ(x)` with `Φ` the standard normal
cumulative distribution function. -/
noncomputable def gelu (x : ℝ) : ℝ := x * ((1 + erf (x / Real.sqrt 2)) / 2)

/-- GELU applied elementwise to a feature map. -/
noncomputable def geluT {c h w : ℕ} (x : Tensor c h w) : Tensor c h w :=
  fun ch i j => gelu (x ch i j)

/-- The ReLU activation `F.relu`. -/
noncomputable def relu (x : ℝ) : ℝ := max 0 x

/-- Parameters of `NormMask(channels, gamma_init)`: a per-channel shift
`beta` (always present), and a per-channel scale `gamma` that exists iff the
module was built with `gamma_init=True` (`register_parameter('gamma', None)`
otherwise). -/
structure NormMaskParams (c : ℕ) where
  beta : Fin c → ℝ
  gamma : Option (Fin c → ℝ)

/-- `NormMask.forward`: `(inputs * gamma + beta) * mask` if `gamma` is not
`None`, else `(inputs + beta) * mask`, broadcasting `beta`/`gamma` over
space and `mask` over channels. -/
noncomputable def NormMask.forward {c h w : ℕ} (p : NormMaskParams c)
    (inputs : Tensor c h w) (mask : Fin h → Fin w → ℝ) : Tensor c h w :=
  fun ch i j =>
    match p.gamma with
    | some g => (inputs ch i j * g ch + p.beta ch) * mask i j
    | none => (inputs ch i j + p.beta ch) * mask i j

/-! ### Constants of `src/zero-torch/model.py` -/

abbrev INNER_CHANNELS : ℕ := 192
abbrev RESIDUAL_INNER_CHANNELS : ℕ := INNER_CHANNELS / 2
abbrev RESIDUAL_BLOCKS : ℕ := 5
abbrev RESIDUAL_SIZE : ℕ := 2
abbrev GPOOL_EVERY : ℕ := 2
abbrev GPOOL_CHANNELS : ℕ := 32
abbrev V1_CHANNELS : ℕ := 32
abbrev P1_CHANNELS : ℕ := 32
abbrev G1_CHANNELS : ℕ := 32

/-- The spatial maximum branch of `gpool_forward`:
`torch.amax(inputs + (mask - 1.0), dim=(2, 3))` per channel. -/
noncomputable def layerMax {c h w : ℕ} [NeZero h] [NeZero w]
    (inputs : Tensor c h w) (mask : Fin h → Fin w → ℝ) : Fin c → ℝ :=
  fun ch =>
    Finset.univ.sup' Finset.univ_nonempty
      (fun p : Fin h × Fin w => inputs ch p.1 p.2 + (mask p.1 p.2 - 1))

/-- The masked spatial mean of `gpool_forward` and `ValueHead.gpool_value`:
`torch.sum(inputs, dim=(2, 3)) / mask_sum_hw` per channel. -/
noncomputable def layerMean {c h w : ℕ} (inputs : Tensor c h w)
    (mask_sum_hw : ℝ) : Fin c → ℝ :=
  fun ch => (∑ i, ∑ j, inputs ch i j) / mask_sum_hw

/-- `gpool_forward(inputs, mask, mask_sum_hw)`: the three pooled
channel-vectors, in the concatenation order of
`torch.cat([out_pool1, out_pool2, out_pool3], dim=1)`.
Index `0` is the masked mean, index `1` is the mean scaled by the linear
board-size correction `(sqrt(mask_sum_hw) - 28) / 10`, index `2` is the
masked spatial max. -/
noncomputable def gpool_forward {c h w : ℕ} [NeZero h] [NeZero w]
    (inputs : Tensor c h w) (mask : Fin h → Fin w → ℝ) (mask_sum_hw : ℝ) :
    Fin 3 → Fin c → ℝ :=
  fun pool ch =>
    if pool = 0 then layerMean inputs mask_sum_hw ch
    else if pool = 1 then
      layerMean inputs mask_sum_hw ch * ((Real.sqrt mask_sum_hw - 28) / 10)
    else layerMax inputs mask ch

/-- Parameters of an `nn.Linear(inF, outF)` layer. -/
structure LinearParams (inF outF : ℕ) where
  weight : Fin outF → Fin inF → ℝ
  bias : Fin outF → ℝ

/-- `nn.Linear` applied to a feature vector. -/
noncomputable def linear {inF outF : ℕ} (p : LinearParams inF outF)
    (x : Fin inF → ℝ) : Fin outF → ℝ :=
  fun o => p.bias o + ∑ i, p.weight o i * x i

/-- Parameters of an `nn.Linear(3 * c, outF)` layer fed with the
concatenation of the three pooled channel-vectors of `gpool_forward`; the
weight is kept curried as `(outF, 3, c)` in the concatenation order. -/
structure Linear3Params (c outF : ℕ) where
  weight : Fin outF → Fin 3 → Fin c → ℝ
  bias : Fin outF → ℝ

/-- `nn.Linear(3 * c, outF)` applied to the flattened pooled output. -/
noncomputable def linear3 {c outF : ℕ} (p : Linear3Params c outF)
    (x : Fin 3 → Fin c → ℝ) : Fin outF → ℝ :=
  fun o => p.bias o + ∑ pool, ∑ ch, p.weight o pool ch * x pool ch

/-! ### `ConvAndGPool` and the residual tower -/

/-- Parameters of `ConvAndGPool`: a plain 3×3 convolution `conv1r` to the
non-gpool channels, a 3×3 convolution `conv1g` to the gpool channels, a
`NormMask(GPOOL_CHANNELS, gamma_init=False)` (so only its `beta` exists),
and the linear projection `linearg` of the pooled statistics. -/
structure ConvAndGPoolParams where
  conv1r : ConvParams RESIDUAL_INNER_CHANNELS (RESIDUAL_INNER_CHANNELS - GPOOL_CHANNELS) 3
  conv1g : ConvParams RESIDUAL_INNER_CHANNELS GPOOL_CHANNELS 3
  normg_beta : Fin GPOOL_CHANNELS → ℝ
  linearg : Linear3Params GPOOL_CHANNELS (RESIDUAL_INNER_CHANNELS - GPOOL_CHANNELS)

/-- `ConvAndGPool.forward`: the plain convolution output plus the
broadcast gpool-branch output (`outr + outg`). -/
noncomputable def ConvAndGPool.forward {h w : ℕ} [NeZero h] [NeZero w]
    (p : ConvAndGPoolParams) (inputs : Tensor RESIDUAL_INNER_CHANNELS h w)
    (mask : Fin h → Fin w → ℝ) (mask_sum_hw : ℝ) :
    Tensor (RESIDUAL_INNER_CHANNELS - GPOOL_CHANNELS) h w :=
  let outr := conv2dSame p.conv1r inputs
  let outg := geluT (NormMask.forward ⟨p.normg_beta, none⟩ (conv2dSame p.conv1g inputs) mask)
  let pooled := gpool_forward outg mask mask_sum_hw
  let outgv := linear3 p.linearg pooled
  fun ch i j => outr ch i j + outgv ch

/-- Parameters of a `NormActConv(gamma=False, gpool=False, ci, co, k)`
unit: the norm's shift and the convolution. -/
structure NormActConvParamsNoGamma (ci co k : ℕ) where
  beta : Fin ci → ℝ
  conv : ConvParams ci co k

/-- `NormActConv.forward` for a `gamma=False, gpool=False` unit:
masked-normalize, GELU, convolve. -/
noncomputable def nacNoGamma.forward {h w : ℕ} {ci co k : ℕ}
    (p : NormActConvParamsNoGamma ci co k) (x : Tensor ci h w)
    (mask : Fin h → Fin w → ℝ) : Tensor co h w :=
  conv2dSame p.conv (geluT (NormMask.forward ⟨p.beta, none⟩ x mask))

/-- Parameters of a `NormActConv(gamma=True, gpool=False, ci, co, k)`
unit: the norm's shift and scale, and the convolution. -/
structure NormActConvParamsGamma (ci co k : ℕ) where
  beta : Fin ci → ℝ
  gamma : Fin ci → ℝ
  conv : ConvParams ci co k

/-- `NormActConv.forward` for a `gamma=True, gpool=False` unit. -/
noncomputable def nacGamma.forward {h w : ℕ} {ci co k : ℕ}
    (p : NormActConvParamsGamma ci co k) (x : Tensor ci h w)
    (mask : Fin h → Fin w → ℝ) : Tensor co h w :=
  conv2dSame p.conv (geluT (NormMask.forward ⟨p.beta, some p.gamma⟩ x mask))

/-- The output channel count of the first `NormActConv` unit of an
`InnerResidualBlock`, and hence the input channel count `in_ch_2` of its
second unit: `RESIDUAL_INNER_CHANNELS - GPOOL_CHANNELS if gpool else
RESIDUAL_INNER_CHANNELS`. -/
def innerMid (gpool : Bool) : ℕ :=
  cond gpool (RESIDUAL_INNER_CHANNELS - GPOOL_CHANNELS) RESIDUAL_INNER_CHANNELS

/-- The first `NormActConv(gamma=False, gpool, ...)` unit of an
`InnerResidualBlock`: with `gpool=True` the convolution stage is a
`ConvAndGPool`, with `gpool=False` it is a plain 3×3 convolution.  The
norm has no `gamma` in either case (`gamma=False`). -/
inductive InnerFirstUnit : Bool → Type where
  | withGpool (beta : Fin RESIDUAL_INNER_CHANNELS → ℝ) (gp : ConvAndGPoolParams) :
      InnerFirstUnit true
  | plain (p : NormActConvParamsNoGamma RESIDUAL_INNER_CHANNELS RESIDUAL_INNER_CHANNELS 3) :
      InnerFirstUnit false

/-- Forward pass of the first inner unit (`normactconv1`): the gpool
variant routes through `ConvAndGPool`, the plain variant through a 3×3
convolution; both first masked-normalize and apply GELU. -/
noncomputable def InnerFirstUnit.forward {h w : ℕ} [NeZero h] [NeZero w] {g : Bool} :
    InnerFirstUnit g → Tensor RESIDUAL_INNER_CHANNELS h w →
    (Fin h → Fin w → ℝ) → ℝ → Tensor (innerMid g) h w
  | .withGpool beta gp, x, mask, ms =>
      ConvAndGPool.forward gp (geluT (NormMask.forward ⟨beta, none⟩ x mask)) mask ms
  | .plain p, x, mask, _ => nacNoGamma.forward p x mask

/-- Parameters of `InnerResidualBlock(gpool)`: `normactconv1` with the
gpool flag and `normactconv2` with `gamma=True`, `in_channels = in_ch_2`. -/
structure InnerResidualBlockParams (gpool : Bool) where
  unit1 : InnerFirstUnit gpool
  unit2 : NormActConvParamsGamma (innerMid gpool) RESIDUAL_INNER_CHANNELS 3

/-- `InnerResidualBlock.forward`: `inputs + normactconv2 (normactconv1 inputs)`. -/
noncomputable def InnerResidualBlock.forward {h w : ℕ} [NeZero h] [NeZero w] {g : Bool}
    (p : InnerResidualBlockParams g) (inputs : Tensor RESIDUAL_INNER_CHANNELS h w)
    (mask : Fin h → Fin w → ℝ) (mask_sum_hw : ℝ) : Tensor RESIDUAL_INNER_CHANNELS h w :=
  let out := p.unit1.forward inputs mask mask_sum_hw
  let out2 := nacGamma.forward p.unit2 out mask
  fun ch i j => inputs ch i j + out2 ch i j

/-- Parameters of `ResidualBlock(gpool)`: the 1×1 down-projection
`normactconvp`, the `RESIDUAL_SIZE = 2` inner blocks built as
`InnerResidualBlock(gpool=(gpool and i == 0))` for `i in range(2)` —
so the first inner block carries the flag and the second never does —
and the 1×1 up-projection `normactconvq` with `gamma=True`. -/
structure ResidualBlockParams (gpool : Bool) where
  nacp : NormActConvParamsNoGamma INNER_CHANNELS RESIDUAL_INNER_CHANNELS 1
  inner0 : InnerResidualBlockParams gpool
  inner1 : InnerResidualBlockParams false
  nacq : NormActConvParamsGamma RESIDUAL_INNER_CHANNELS INNER_CHANNELS 1

/-- `ResidualBlock.forward`: down-project, run the two inner blocks,
up-project, and add the block input. -/
noncomputable def ResidualBlock.forward {h w : ℕ} [NeZero h] [NeZero w] {g : Bool}
    (p : ResidualBlockParams g) (inputs : Tensor INNER_CHANNELS h w)
    (mask : Fin h → Fin w → ℝ) (mask_sum_hw : ℝ) : Tensor INNER_CHANNELS h w :=
  let out0 := nacNoGamma.forward p.nacp inputs mask
  let out1 := InnerResidualBlock.forward p.inner0 out0 mask mask_sum_hw
  let out2 := InnerResidualBlock.forward p.inner1 out1 mask mask_sum_hw
  let out3 := nacGamma.forward p.nacq out2 mask
  fun ch i j => inputs ch i j + out3 ch i j

/-! ### Heads and the full masked model -/

/-- Parameters of `ValueHead`: a 1×1 convolution to `V1_CHANNELS`, a
`NormMask(V1_CHANNELS, gamma_init=False)` (`bias1`, only `beta`), and
`linear2 : nn.Linear(3 * V1_CHANNELS, 1)` over the flattened pooled
output. -/
structure ValueHeadParams where
  conv1 : ConvParams INNER_CHANNELS V1_CHANNELS 1
  bias1_beta : Fin V1_CHANNELS → ℝ
  linear2 : Linear3Params V1_CHANNELS 1

/-- `ValueHead.gpool_value(inputs, mask_sum_hw)`: the three mean-based
pooled channel-vectors, in concatenation order.  Index `0` is the masked
mean, index `1` the mean scaled by `(sqrt(mask_sum_hw) - 28) / 10`, index
`2` the mean scaled by the quadratic board-size correction
`(sqrt(mask_sum_hw) - 28)² / 100 - 0.52`. -/
noncomputable def ValueHead.gpool_value {c h w : ℕ} (inputs : Tensor c h w)
    (mask_sum_hw : ℝ) : Fin 3 → Fin c → ℝ :=
  fun pool ch =>
    if pool = 0 then layerMean inputs mask_sum_hw ch
    else if pool = 1 then
      layerMean inputs mask_sum_hw ch * ((Real.sqrt mask_sum_hw - 28) / 10)
    else
      layerMean inputs mask_sum_hw ch * ((Real.sqrt mask_sum_hw - 28) ^ 2 / 100 - 0.52)

/-- `ValueHead.forward` (per sample): 1×1 convolve, masked-shift, GELU,
value-variant global pooling, flatten, project to one scalar, squeeze,
`tanh`. -/
noncomputable def ValueHead.forward {h w : ℕ} (p : ValueHeadParams)
    (inputs : Tensor INNER_CHANNELS h w) (mask : Fin h → Fin w → ℝ)
    (mask_sum_hw : ℝ) : ℝ :=
  let outv1 := geluT (NormMask.forward ⟨p.bias1_beta, none⟩ (conv2dSame p.conv1 inputs) mask)
  let outpooled := ValueHead.gpool_value outv1 mask_sum_hw
  Real.tanh (linear3 p.linear2 outpooled 0)

/-- Parameters of `PolicyHead`: two 1×1 convolutions `conv1p`/`conv1g`
from the trunk, `NormMask` shifts `biasg` and `bias2` (both
`gamma_init=False`), the pooled-context projection `linearg`, and the
final single-channel 1×1 convolution `conv2p`. -/
structure PolicyHeadParams where
  conv1p : ConvParams INNER_CHANNELS P1_CHANNELS 1
  conv1g : ConvParams INNER_CHANNELS G1_CHANNELS 1
  biasg_beta : Fin G1_CHANNELS → ℝ
  linearg : Linear3Params G1_CHANNELS P1_CHANNELS
  bias2_beta : Fin P1_CHANNELS → ℝ
  conv2p : ConvParams P1_CHANNELS 1 1

/-- The single-channel policy logits of `PolicyHead.forward` before the
illegal-move masking: the parallel p-path plus the broadcast pooled
g-path, masked-shifted, activated and reduced to one channel by `conv2p`. -/
noncomputable def PolicyHead.logits {h w : ℕ} [NeZero h] [NeZero w]
    (p : PolicyHeadParams) (inputs : Tensor INNER_CHANNELS h w)
    (mask : Fin h → Fin w → ℝ) (mask_sum_hw : ℝ) : Fin h → Fin w → ℝ :=
  let outp := conv2dSame p.conv1p inputs
  let outg := geluT (NormMask.forward ⟨p.biasg_beta, none⟩ (conv2dSame p.conv1g inputs) mask)
  let outgv := linear3 p.linearg (gpool_forward outg mask mask_sum_hw)
  let outsum : Tensor P1_CHANNELS h w := fun ch i j => outp ch i j + outgv ch
  let outact := geluT (NormMask.forward ⟨p.bias2_beta, none⟩ outsum mask)
  fun i j => conv2dSame p.conv2p outact 0 i j

/-- `PolicyHead.forward` (per sample): subtract `(1 - mask) * 5000` from
the single-channel logits, then take `log_softmax` over the flattened
spatial dimension and reshape back to the grid. -/
noncomputable def PolicyHead.forward {h w : ℕ} [NeZero h] [NeZero w]
    (p : PolicyHeadParams) (inputs : Tensor INNER_CHANNELS h w)
    (mask : Fin h → Fin w → ℝ) (mask_sum_hw : ℝ) : Fin h → Fin w → ℝ :=
  let z := fun i j => PolicyHead.logits p inputs mask mask_sum_hw i j - (1 - mask i j) * 5000
  fun i j => z i j - Real.log (∑ i', ∑ j', Real.exp (z i' j'))

/-- The gpool flags of the `Model.__init__` residual list:
`ResidualBlock(gpool=((i + 1) % GPOOL_EVERY == 0)) for i in range(RESIDUAL_BLOCKS)`. -/
def modelGpoolFlags : List Bool :=
  (List.range RESIDUAL_BLOCKS).map (fun i => decide ((i + 1) % GPOOL_EVERY = 0))

/-- The gpool flags of the `ResidualBlock.__init__` inner list:
`InnerResidualBlock(gpool=(gpool and i == 0)) for i in range(RESIDUAL_SIZE)`. -/
def innerGpoolFlags (gpool : Bool) : List Bool :=
  (List.range RESIDUAL_SIZE).map (fun i => gpool && decide (i = 0))

/-- Per inner block, the gpool flags of its two `NormActConv` units:
`normactconv1` receives the inner block's flag, `normactconv2` is always
built with `gpool=False`. -/
def blockUnitGpoolFlags (gpool : Bool) : List (List Bool) :=
  (innerGpoolFlags gpool).map (fun gi => [gi, false])

/-- Learnable parameters of the masked `Model(num_channels)`: the initial
3×3 convolution, one `ResidualBlockParams` per entry of the residual list
(whose gpool flag is `(i + 1) % GPOOL_EVERY == 0`), the trunk-final
`NormMask` shift, and the two heads. -/
structure ModelParams (num_channels : ℕ) where
  initial_conv : ConvParams num_channels INNER_CHANNELS 3
  residuals : ∀ i : Fin RESIDUAL_BLOCKS, ResidualBlockParams (decide ((i.val + 1) % GPOOL_EVERY = 0))
  norm_trunkfinal_beta : Fin INNER_CHANNELS → ℝ
  value_head : ValueHeadParams
  policy_head : PolicyHeadParams

/-- The mask of `Model.forward`: channel 0 of the input,
`mask = x[:, 0:1, :, :]`. -/
noncomputable def Model.maskOf {n h w : ℕ} [NeZero n] (x : Tensor n h w) :
    Fin h → Fin w → ℝ :=
  fun i j => x 0 i j

/-- The per-sample mask sum of `Model.forward`:
`mask_sum_hw = torch.sum(mask, dim=(2, 3))`. -/
noncomputable def Model.maskSum {n h w : ℕ} [NeZero n] (x : Tensor n h w) : ℝ :=
  ∑ i, ∑ j, Model.maskOf x i j

/-- The trunk of `Model.forward` (per sample): the initial convolution,
the five residual blocks in list order, and the trunk-final masked shift
and GELU. -/
noncomputable def Model.trunkOut {n h w : ℕ} [NeZero n] [NeZero h] [NeZero w]
    (m : ModelParams n) (x : Tensor n h w) : Tensor INNER_CHANNELS h w :=
  let mask := Model.maskOf x
  let mask_sum_hw := Model.maskSum x
  let x0 := conv2dSame m.initial_conv x
  let xt := (List.finRange RESIDUAL_BLOCKS).foldl
    (fun t i => ResidualBlock.forward (m.residuals i) t mask mask_sum_hw) x0
  geluT (NormMask.forward ⟨m.norm_trunkfinal_beta, none⟩ xt mask)

/-- `Model.forward` (per sample): derive the mask from channel 0 of the
input and its spatial sum, run the trunk, then both heads.  Returns
`(policy log-probabilities, value)`. -/
noncomputable def Model.forward {n h w : ℕ} [NeZero n] [NeZero h] [NeZero w]
    (m : ModelParams n) (x : Tensor n h w) : (Fin h → Fin w → ℝ) × ℝ :=
  (PolicyHead.forward m.policy_head (Model.trunkOut m x) (Model.maskOf x) (Model.maskSum x),
   ValueHead.forward m.value_head (Model.trunkOut m x) (Model.maskOf x) (Model.maskSum x))

/-- The pre-masking single-channel policy logits that `Model.forward`
feeds into the illegal-move masking and log-softmax, as a function of the
input sample. -/
noncomputable def Model.policyRawLogits {n h w : ℕ} [NeZero n] [NeZero h] [NeZero w]
    (m : ModelParams n) (x : Tensor n h w) : Fin h → Fin w → ℝ :=
  PolicyHead.logits m.policy_head (Model.trunkOut m x) (Model.maskOf x) (Model.maskSum x)

/-- The persistent state of an `nn.Module` instance of `Model`: its
learnable parameters and its `training` flag. -/
structure ModelState (num_channels : ℕ) where
  params : ModelParams num_channels
  training : Bool

/-- `Model.predict` on a batch: `self.eval()` (so the returned state has
`training = false` and unchanged parameters), a `no_grad` forward pass,
and exponentiation of the policy log-probabilities.  Returns the new
module state together with the per-sample policies and values. -/
noncomputable def Model.predict {n h w b : ℕ} [NeZero n] [NeZero h] [NeZero w]
    (s : ModelState n) (inputs : Fin b → Tensor n h w) :
    ModelState n × (Fin b → Fin h → Fin w → ℝ) × (Fin b → ℝ) :=
  let s' : ModelState n := { s with training := false }
  (s',
   fun k i j => Real.exp ((Model.forward s'.params (inputs k)).1 i j),
   fun k => (Model.forward s'.params (inputs k)).2)

/-- One observable side effect of a `train_on` call, in program order:
printing the loss, `optimizer.zero_grad()`, `loss.backward()`, and
`optimizer.step()`. -/
inductive TrainEvent where
  | print (loss : ℝ)
  | zeroGrad
  | backward (loss : ℝ)
  | step

/-- The policy loss of `Model.train_on`:
`-torch.sum(out_policies * policies) / inputs.size(0)`. -/
noncomputable def Model.policiesLoss {h w b : ℕ}
    (out_policies policies : Fin b → Fin h → Fin w → ℝ) : ℝ :=
  -(∑ k, ∑ i, ∑ j, out_policies k i j * policies k i j) / b

/-- The value loss of `Model.train_on`: with `diff = out_values - values`,
`torch.sum(diff * diff) / inputs.size(0)`. -/
noncomputable def Model.valuesLoss {b : ℕ} (out_values values : Fin b → ℝ) : ℝ :=
  (∑ k, (out_values k - values k) * (out_values k - values k)) / b

/-- `Model.train_on(optimizer, inputs, policies, values)`: `self.train()`,
forward pass, loss computation, then print / zero_grad / backward / step.
The optimizer is abstracted as the parameter-update function its single
`step()` applies; the Python method returns `None`, so the embedding
returns only the new module state and the event trace. -/
noncomputable def Model.train_on {n h w b : ℕ} [NeZero n] [NeZero h] [NeZero w]
    (s : ModelState n) (optStep : ModelParams n → ModelParams n)
    (inputs : Fin b → Tensor n h w) (policies : Fin b → Fin h → Fin w → ℝ)
    (values : Fin b → ℝ) : ModelState n × List TrainEvent :=
  let s' : ModelState n := { s with training := true }
  let out_policies := fun k i j => (Model.forward s'.params (inputs k)).1 i j
  let out_values := fun k => (Model.forward s'.params (inputs k)).2
  let values_loss := Model.valuesLoss out_values values
  let policies_loss := Model.policiesLoss out_policies policies
  let total_loss := policies_loss + values_loss
  ({ s' with params := optStep s'.params },
   [TrainEvent.print total_loss, TrainEvent.zeroGrad,
    TrainEvent.backward total_loss, TrainEvent.step])

/-! ### The legacy small tower `src/zero-torch/oppai_net.py` -/

abbrev inner_channels : ℕ := 8
abbrev linear_first : ℕ := 1024
abbrev linear_second : ℕ := 512

/-- Parameters and buffers of an `nn.BatchNorm2d(c)` module: affine weight
(`gamma`) and bias (`beta`), and the running statistics used in
evaluation mode. -/
structure BatchNorm2dParams (c : ℕ) where
  gamma : Fin c → ℝ
  beta : Fin c → ℝ
  running_mean : Fin c → ℝ
  running_var : Fin c → ℝ

/-- `nn.BatchNorm2d` forward with the default `eps = 1e-5`: in training
mode it normalizes with per-channel batch statistics taken over the
batch and both spatial dimensions, in evaluation mode with the running
statistics.  (The training-mode update of the running statistics is a
buffer side effect not needed by any claim and omitted.) -/
noncomputable def batchNorm2d {c h w b : ℕ} (training : Bool)
    (p : BatchNorm2dParams c) (x : Fin b → Tensor c h w) : Fin b → Tensor c h w :=
  if training then
    let n : ℝ := (b * h * w : ℕ)
    let mean := fun ch => (∑ k, ∑ i, ∑ j, x k ch i j) / n
    let var := fun ch => (∑ k, ∑ i, ∑ j, (x k ch i j - mean ch) ^ 2) / n
    fun k ch i j => p.gamma ch * ((x k ch i j - mean ch) / Real.sqrt (var ch + 1e-5)) + p.beta ch
  else
    fun k ch i j =>
      p.gamma ch * ((x k ch i j - p.running_mean ch) / Real.sqrt (p.running_var ch + 1e-5)) + p.beta ch

/-- Parameters and buffers of an `nn.BatchNorm1d(f)` module. -/
structure BatchNorm1dParams (f : ℕ) where
  gamma : Fin f → ℝ
  beta : Fin f → ℝ
  running_mean : Fin f → ℝ
  running_var : Fin f → ℝ

/-- `nn.BatchNorm1d` forward with the default `eps = 1e-5`: per-feature
batch statistics over the batch in training mode, running statistics in
evaluation mode. -/
noncomputable def batchNorm1d {f b : ℕ} (training : Bool)
    (p : BatchNorm1dParams f) (x : Fin b → Fin f → ℝ) : Fin b → Fin f → ℝ :=
  if training then
    let mean := fun i => (∑ k, x k i) / (b : ℝ)
    let var := fun i => (∑ k, (x k i - mean i) ^ 2) / (b : ℝ)
    fun k i => p.gamma i * ((x k i - mean i) / Real.sqrt (var i + 1e-5)) + p.beta i
  else
    fun k i =>
      p.gamma i * ((x k i - p.running_mean i) / Real.sqrt (p.running_var i + 1e-5)) + p.beta i

/-- `F.dropout(x, p)` with an explicit Bernoulli keep-mask: a kept entry
is scaled by `1 / (1 - p)`, a dropped entry becomes `0`.  Note that the
`training` argument of `F.dropout` defaults to `True`, so the functional
form applies dropout regardless of the module's `training` flag. -/
noncomputable def dropout {b f : ℕ} (p : ℝ) (keep : Fin b → Fin f → Bool)
    (x : Fin b → Fin f → ℝ) : Fin b → Fin f → ℝ :=
  fun k i => if keep k i then x k i / (1 - p) else 0

/-- ReLU applied elementwise to a batched feature map. -/
noncomputable def reluBT {c h w b : ℕ} (x : Fin b → Tensor c h w) : Fin b → Tensor c h w :=
  fun k ch i j => relu (x k ch i j)

/-- ReLU applied elementwise to a batched feature vector. -/
noncomputable def reluBV {f b : ℕ} (x : Fin b → Fin f → ℝ) : Fin b → Fin f → ℝ :=
  fun k i => relu (x k i)

/-- `loss_policy(targets, outputs) = -torch.sum(targets * outputs) / targets.size()[0]`. -/
noncomputable def loss_policy {b u v : ℕ} (targets outputs : Fin b → Fin u → Fin v → ℝ) : ℝ :=
  -(∑ k, ∑ i, ∑ j, targets k i j * outputs k i j) / b

/-- `loss_value(targets, outputs) = torch.sum((targets - outputs) ** 2) / targets.size()[0]`. -/
noncomputable def loss_value {b : ℕ} (targets outputs : Fin b → ℝ) : ℝ :=
  (∑ k, (targets k - outputs k) ^ 2) / b

/-- Learnable parameters and buffers of `OppaiNet(width, height,
num_channels)`; `h0`/`w0` are `height`/`width`.  The fully-connected
weights over flattened feature maps are kept curried over
`(channel, row, column)` indices, and `fc3`'s output over the
`(width, height)` grid of the final `view`. -/
structure OppaiNetParams (n h0 w0 : ℕ) where
  conv1 : ConvParams n inner_channels 3
  conv2 : ConvParams inner_channels inner_channels 3
  conv3 : ConvParams inner_channels inner_channels 3
  conv4 : ConvParams inner_channels inner_channels 3
  bn1 : BatchNorm2dParams inner_channels
  bn2 : BatchNorm2dParams inner_channels
  bn3 : BatchNorm2dParams inner_channels
  bn4 : BatchNorm2dParams inner_channels
  fc1_weight : Fin linear_first → Fin inner_channels → Fin (h0 - 4) → Fin (w0 - 4) → ℝ
  fc1_bias : Fin linear_first → ℝ
  fc_bn1 : BatchNorm1dParams linear_first
  fc2 : LinearParams linear_first linear_second
  fc_bn2 : BatchNorm1dParams linear_second
  fc3_weight : Fin w0 → Fin h0 → Fin linear_second → ℝ
  fc3_bias : Fin w0 → Fin h0 → ℝ
  fc4 : LinearParams linear_second 1

/-- `OppaiNet.forward` on a batch: four convolution / batch-norm / ReLU
stages (`conv1`/`conv2` with `padding = 1`, `conv3`/`conv4` unpadded),
flatten, two fully-connected / batch-norm / ReLU / `F.dropout(p = 0.3)`
stages, then the log-softmax policy over the flattened `width * height`
grid and the tanh value.  `training` is the module's `training` flag
(it reaches the batch-norm layers only: the `F.dropout` calls leave the
`training` argument at its default `True`, so the dropout masks `keep1`,
`keep2` are applied unconditionally). -/
noncomputable def OppaiNet.forward {n h0 w0 b : ℕ} (p : OppaiNetParams n h0 w0)
    (training : Bool) (keep1 : Fin b → Fin linear_first → Bool)
    (keep2 : Fin b → Fin linear_second → Bool) (x : Fin b → Tensor n h0 w0) :
    (Fin b → Fin w0 → Fin h0 → ℝ) × (Fin b → ℝ) :=
  let x1 := reluBT (batchNorm2d training p.bn1 (fun k => conv2dSame p.conv1 (x k)))
  let x2 := reluBT (batchNorm2d training p.bn2 (fun k => conv2dSame p.conv2 (x1 k)))
  let x3 := reluBT (batchNorm2d training p.bn3 (fun k => conv2dValid p.conv3 (x2 k)))
  let x4 := reluBT (batchNorm2d training p.bn4 (fun k => conv2dValid p.conv4 (x3 k)))
  let z0 : Fin b → Fin linear_first → ℝ := fun k o =>
    p.fc1_bias o + ∑ ch, ∑ i, ∑ j, p.fc1_weight o ch i j * x4 k ch i j
  let z1 := dropout 0.3 keep1 (reluBV (batchNorm1d training p.fc_bn1 z0))
  let z2 := dropout 0.3 keep2
    (reluBV (batchNorm1d training p.fc_bn2 (fun k => linear p.fc2 (z1 k))))
  let pol := fun k (i : Fin w0) (j : Fin h0) =>
    let t := fun (i' : Fin w0) (j' : Fin h0) =>
      p.fc3_bias i' j' + ∑ c, p.fc3_weight i' j' c * z2 k c
    t i j - Real.log (∑ i', ∑ j', Real.exp (t i' j'))
  (pol, fun k => Real.tanh (linear p.fc4 (z2 k) 0))

/-- `OppaiNet.predict(inputs)`: a plain forward pass followed by
exponentiation of the policy log-probabilities.  The method neither calls
`self.eval()` nor passes `training=False` to `F.dropout`, so the module's
current `training` flag and fresh dropout masks enter the forward pass
unchanged. -/
noncomputable def OppaiNet.predict {n h0 w0 b : ℕ} (p : OppaiNetParams n h0 w0)
    (training : Bool) (keep1 : Fin b → Fin linear_first → Bool)
    (keep2 : Fin b → Fin linear_second → Bool) (inputs : Fin b → Tensor n h0 w0) :
    (Fin b → Fin w0 → Fin h0 → ℝ) × (Fin b → ℝ) :=
  (fun k i j => Real.exp ((OppaiNet.forward p training keep1 keep2 inputs).1 k i j),
   (OppaiNet.forward p training keep1 keep2 inputs).2)

/-- `OppaiNet.train_on(optimizer, inputs, policies, values)`: forward
pass, `loss_policy` and `loss_value`, total loss, then
zero_grad / backward / step (the method neither calls `self.train()` nor
prints, and returns `None`). -/
noncomputable def OppaiNet.train_on {n h0 w0 b : ℕ} (p : OppaiNetParams n h0 w0)
    (training : Bool) (keep1 : Fin b → Fin linear_first → Bool)
    (keep2 : Fin b → Fin linear_second → Bool)
    (optStep : OppaiNetParams n h0 w0 → OppaiNetParams n h0 w0)
    (inputs : Fin b → Tensor n h0 w0) (policies : Fin b → Fin w0 → Fin h0 → ℝ)
    (values : Fin b → ℝ) : OppaiNetParams n h0 w0 × List TrainEvent :=
  let out := OppaiNet.forward p training keep1 keep2 inputs
  let policies_loss := loss_policy policies out.1
  let values_loss := loss_value values out.2
  let total_loss := policies_loss + values_loss
  (optStep p, [TrainEvent.zeroGrad, TrainEvent.backward total_loss, TrainEvent.step])

/-! ### Shape semantics of the masked residual tower

Each definition mirrors the corresponding `forward` above at the level of
tensor shapes: a layer maps an input shape to `some` output shape when the
external runtime's shape checks pass and to `none` when they fail. -/

/-- The shape `(channels, height, width)` of a feature map. -/
structure TShape where
  channels : ℕ
  height : ℕ
  width : ℕ
  deriving DecidableEq

/-- Shape of `nn.Conv2d(ci, co, k, padding='same')`, stride 1: requires
`ci` input channels and preserves the spatial grid. -/
def conv2dSameShape (ci co : ℕ) (s : TShape) : Option TShape :=
  if s.channels = ci then some ⟨co, s.height, s.width⟩ else none

/-- Shape of `NormMask(c)`: requires `c` channels and preserves the
shape (the activation that follows is elementwise and also
shape-preserving). -/
def normMaskShape (c : ℕ) (s : TShape) : Option TShape :=
  if s.channels = c then some s else none

/-- Shape of `ConvAndGPool.forward`: the `conv1r` path determines the
output (the pooled `linearg` output is broadcast over its grid). -/
def convAndGPoolShape (s : TShape) : Option TShape := do
  let sr ← conv2dSameShape RESIDUAL_INNER_CHANNELS (RESIDUAL_INNER_CHANNELS - GPOOL_CHANNELS) s
  let sg ← conv2dSameShape RESIDUAL_INNER_CHANNELS GPOOL_CHANNELS s
  let _ ← normMaskShape GPOOL_CHANNELS sg
  pure sr

/-- Shape of a `NormActConv(gamma, gpool, ci, co, k)` unit:
masked-normalize, GELU, then either `ConvAndGPool` or a plain `'same'`
convolution. -/
def nacShape (ci co : ℕ) (gpool : Bool) (s : TShape) : Option TShape := do
  let s1 ← normMaskShape ci s
  if gpool then convAndGPoolShape s1 else conv2dSameShape ci co s1

/-- Shape of `InnerResidualBlock.forward`: the two units in sequence;
the identity skip connection `inputs + out` requires the output shape to
equal the input shape. -/
def innerResidualShape (gpool : Bool) (s : TShape) : Option TShape := do
  let s1 ← nacShape RESIDUAL_INNER_CHANNELS RESIDUAL_INNER_CHANNELS gpool s
  let s2 ← nacShape (innerMid gpool) RESIDUAL_INNER_CHANNELS false s1
  if s2 = s then some s else none

/-- Shape of `ResidualBlock.forward`: down-projection, the two inner
blocks (`gpool` on the first only), up-projection, and the identity skip
connection requiring output shape = input shape. -/
def residualBlockShape (gpool : Bool) (s : TShape) : Option TShape := do
  let s1 ← nacShape INNER_CHANNELS RESIDUAL_INNER_CHANNELS false s
  let s2 ← innerResidualShape gpool s1
  let s3 ← innerResidualShape false s2
  let s4 ← nacShape RESIDUAL_INNER_CHANNELS INNER_CHANNELS false s3
  if s4 = s then some s else none

/-- Shape of one iteration of the residual-block loop of
`src/zero-tf/model.py` (lines 48-52): two 3×3 `'same'` convolutions with
256 filters (batch normalization and activation preserve shapes), and the
sum `shared_output + conv_layer2` requiring output shape = input shape. -/
def tfResidualBlockShape (s : TShape) : Option TShape := do
  let s1 ← conv2dSameShape 256 256 s
  let s2 ← conv2dSameShape 256 256 s1
  if s2 = s then some s else none

/-! ### Definitions following the spec's wording (for refinement claims) -/

/-- The NormMask contract in the spec's words (§4.1): compute
`(input * scale + shift) * mask` if the scale exists, else
`(input + shift) * mask`. -/
noncomputable def normMaskSpec {c h w : ℕ} (shift : Fin c → ℝ)
    (scale : Option (Fin c → ℝ)) (input : Tensor c h w)
    (mask : Fin h → Fin w → ℝ) : Tensor c h w :=
  fun ch i j =>
    (match scale with
     | some sc => input ch i j * sc ch + shift ch
     | none => input ch i j + shift ch) * mask i j

/-- The policy loss in the spec's words (§4.7): the negative sum of the
elementwise product of the target distribution and the predicted
log-probabilities, per sample, averaged over the batch. -/
noncomputable def specPolicyLoss {b u v : ℕ} (target logp : Fin b → Fin u → Fin v → ℝ) : ℝ :=
  (∑ k, -(∑ i, ∑ j, target k i j * logp k i j)) / b

/-- The value loss in the spec's words (§4.7): the squared difference
between predicted and target values, per sample, averaged over the
batch. -/
noncomputable def specValueLoss {b : ℕ} (pred target : Fin b → ℝ) : ℝ :=
  (∑ k, (pred k - target k) ^ 2) / b

/-- Recognizer for the `optimizer.step()` event of a trace. -/
def TrainEvent.isStep : TrainEvent → Bool
  | TrainEvent.step => true
  | _ => false

/-! ### Concrete parameter values used by the evaluation witnesses -/

/-- A convolution with all weights and biases zero. -/
def zeroConv (ci co k : ℕ) : ConvParams ci co k := ⟨fun _ _ _ _ => 0, fun _ => 0⟩

/-- A linear layer with all weights and biases zero. -/
def zeroLinear (inF outF : ℕ) : LinearParams inF outF := ⟨fun _ _ => 0, fun _ => 0⟩

/-- A pooled-input linear layer with all weights and biases zero. -/
def zeroLinear3 (c outF : ℕ) : Linear3Params c outF := ⟨fun _ _ _ => 0, fun _ => 0⟩

/-- A `ConvAndGPool` with all parameters zero. -/
def zeroConvAndGPool : ConvAndGPoolParams :=
  ⟨zeroConv _ _ _, zeroConv _ _ _, fun _ => 0, zeroLinear3 _ _⟩

/-- A gamma-free `NormActConv` unit with all parameters zero. -/
def zeroNacNoGamma (ci co k : ℕ) : NormActConvParamsNoGamma ci co k :=
  ⟨fun _ => 0, zeroConv _ _ _⟩

/-- A gamma-carrying `NormActConv` unit with all parameters zero. -/
def zeroNacGamma (ci co k : ℕ) : NormActConvParamsGamma ci co k :=
  ⟨fun _ => 0, fun _ => 0, zeroConv _ _ _⟩

/-- A first inner unit with all parameters zero, for either gpool flag. -/
def zeroInnerFirst : (g : Bool) → InnerFirstUnit g
  | true => InnerFirstUnit.withGpool (fun _ => 0) zeroConvAndGPool
  | false => InnerFirstUnit.plain (zeroNacNoGamma _ _ _)

/-- An inner residual block with all parameters zero. -/
def zeroInnerBlock (g : Bool) : InnerResidualBlockParams g :=
  ⟨zeroInnerFirst g, zeroNacGamma _ _ _⟩

/-- An outer residual block with all parameters zero. -/
def zeroResBlock (g : Bool) : ResidualBlockParams g :=
  ⟨zeroNacNoGamma _ _ _, zeroInnerBlock g, zeroInnerBlock false, zeroNacGamma _ _ _⟩

/-- A value head with all parameters zero. -/
def zeroValueHead : ValueHeadParams := ⟨zeroConv _ _ _, fun _ => 0, zeroLinear3 _ _⟩

/-- A policy head with all parameters zero. -/
def zeroPolicyHead : PolicyHeadParams :=
  ⟨zeroConv _ _ _, zeroConv _ _ _, fun _ => 0, zeroLinear3 _ _, fun _ => 0, zeroConv _ _ _⟩

/-- A masked `Model` with all parameters zero. -/
def zeroModelParams (n : ℕ) : ModelParams n :=
  ⟨zeroConv _ _ _, fun _ => zeroResBlock _, fun _ => 0, zeroValueHead, zeroPolicyHead⟩

/-- A batch-norm layer with all parameters and running statistics zero;
since its `gamma` is zero its output is identically `beta = 0`. -/
def zeroBn2d (c : ℕ) : BatchNorm2dParams c := ⟨fun _ => 0, fun _ => 0, fun _ => 0, fun _ => 0⟩

/-- A 1d batch-norm layer with all parameters and running statistics zero. -/
def zeroBn1d (f : ℕ) : BatchNorm1dParams f := ⟨fun _ => 0, fun _ => 0, fun _ => 0, fun _ => 0⟩

/-- The `OppaiNet(width=5, height=5, num_channels=1)` parameter values of
the dropout counterexample: every convolution and every fully-connected
weight is zero except `fc4`, whose single output row reads coordinate 0,
and `fc_bn2`, whose `beta` is the unit vector at coordinate 0 (with
`gamma = 0` each batch-norm outputs its `beta` identically).  With these
values the value head computes `tanh` of `1 / (1 - 0.3)` times the
indicator that the second dropout kept coordinate 0. -/
noncomputable def oppaiWitnessParams : OppaiNetParams 1 5 5 where
  conv1 := zeroConv _ _ _
  conv2 := zeroConv _ _ _
  conv3 := zeroConv _ _ _
  conv4 := zeroConv _ _ _
  bn1 := zeroBn2d _
  bn2 := zeroBn2d _
  bn3 := zeroBn2d _
  bn4 := zeroBn2d _
  fc1_weight := fun _ _ _ _ => 0
  fc1_bias := fun _ => 0
  fc_bn1 := zeroBn1d _
  fc2 := zeroLinear _ _
  fc_bn2 := ⟨fun _ => 0, fun i => if i = 0 then 1 else 0, fun _ => 0, fun _ => 0⟩
  fc3_weight := fun _ _ _ => 0
  fc3_bias := fun _ _ => 0
  fc4 := ⟨fun _ c => if c = 0 then 1 else 0, fun _ => 0⟩

/-! ### Helper lemmas -/

@[simp] theorem gelu_zero : gelu 0 = 0 := by simp [gelu]

@[simp] theorem relu_zero : relu 0 = 0 := by simp [relu]

theorem relu_of_nonneg {x : ℝ} (hx : 0 ≤ x) : relu x = x := max_eq_right hx

/-- `tanh` maps every real strictly inside `(-1, 1)`. -/
theorem tanh_mem_Ioo (x : ℝ) : -1 < Real.tanh x ∧ Real.tanh x < 1 := by
  have hc : 0 < Real.cosh x := Real.cosh_pos x
  have h1 : Real.sinh x < Real.cosh x := by
    have := Real.cosh_sub_sinh x
    have he : 0 < Real.exp (-x) := Real.exp_pos _
    linarith
  have h2 : -Real.cosh x < Real.sinh x := by
    have := Real.sinh_add_cosh x
    have he : 0 < Real.exp x := Real.exp_pos _
    linarith
  rw [Real.tanh_eq_sinh_div_cosh]
  constructor
  · rw [lt_div_iff₀ hc]; linarith
  · rw [div_lt_one hc]; exact h1

/-- `tanh` is strictly positive on positive reals. -/
theorem tanh_pos {x : ℝ} (hx : 0 < x) : 0 < Real.tanh x := by
  rw [Real.tanh_eq_sinh_div_cosh]
  exact div_pos (Real.sinh_pos_iff.mpr hx) (Real.cosh_pos x)

/-- The flattened-softmax denominator is positive. -/
theorem expSum_pos {h w : ℕ} [NeZero h] [NeZero w] (z : Fin h → Fin w → ℝ) :
    0 < ∑ i, ∑ j, Real.exp (z i j) := by
  refine Finset.sum_pos (fun i _ => Finset.sum_pos (fun j _ => Real.exp_pos _) ?_) ?_
  · exact Finset.univ_nonempty
  · exact Finset.univ_nonempty

/-- Softmax facts about the flattened masked log-softmax grid: each
exponentiated entry is positive, the exponentiated entries sum to `1`,
and each entry is bounded by the exponential of its gap to any other
entry. -/
theorem logSoftmax_facts {h w : ℕ} [NeZero h] [NeZero w] (z : Fin h → Fin w → ℝ) :
    (∀ i j, 0 < Real.exp (z i j - Real.log (∑ i', ∑ j', Real.exp (z i' j')))) ∧
    (∑ i, ∑ j, Real.exp (z i j - Real.log (∑ i', ∑ j', Real.exp (z i' j'))) = 1) ∧
    (∀ i j i' j', Real.exp (z i j - Real.log (∑ a, ∑ b, Real.exp (z a b))) ≤
      Real.exp (z i j - z i' j')) := by
  have hS : 0 < ∑ i', ∑ j', Real.exp (z i' j') := expSum_pos z
  have hrw : ∀ i j, Real.exp (z i j - Real.log (∑ i', ∑ j', Real.exp (z i' j'))) =
      Real.exp (z i j) / (∑ i', ∑ j', Real.exp (z i' j')) := by
    intro i j
    rw [Real.exp_sub, Real.exp_log hS]
  refine ⟨fun i j => Real.exp_pos _, ?_, ?_⟩
  · calc (∑ i, ∑ j, Real.exp (z i j - Real.log (∑ i', ∑ j', Real.exp (z i' j'))))
        = ∑ i, ∑ j, Real.exp (z i j) / (∑ i', ∑ j', Real.exp (z i' j')) := by
          exact Finset.sum_congr rfl (fun i _ => Finset.sum_congr rfl (fun j _ => hrw i j))
      _ = (∑ i, ∑ j, Real.exp (z i j)) / (∑ i', ∑ j', Real.exp (z i' j')) := by
          rw [Finset.sum_div]
          exact Finset.sum_congr rfl (fun i _ => (Finset.sum_div _ _ _).symm)
      _ = 1 := div_self (ne_of_gt hS)
  · intro i j i' j'
    have hle : Real.exp (z i' j') ≤ ∑ a, ∑ b, Real.exp (z a b) := by
      calc Real.exp (z i' j') ≤ ∑ b, Real.exp (z i' b) :=
            Finset.single_le_sum (fun b _ => le_of_lt (Real.exp_pos _)) (Finset.mem_univ j')
        _ ≤ ∑ a, ∑ b, Real.exp (z a b) :=
            Finset.single_le_sum (f := fun a => ∑ b, Real.exp (z a b))
              (fun a _ => Finset.sum_nonneg (fun b _ => le_of_lt (Real.exp_pos _)))
              (Finset.mem_univ i')
    have hmain : Real.exp (z i j) / (∑ a, ∑ b, Real.exp (z a b)) ≤
        Real.exp (z i j) / Real.exp (z i' j') :=
      div_le_div_of_nonneg_left (le_of_lt (Real.exp_pos _)) (Real.exp_pos _) hle
    rw [hrw i j, Real.exp_sub]
    exact hmain

/-- A zero-parameter convolution outputs zero on every input. -/
@[simp] theorem conv2dSame_zero {ci h w co k : ℕ} (x : Tensor ci h w)
    (o : Fin co) (i : Fin h) (j : Fin w) : conv2dSame (zeroConv ci co k) x o i j = 0 := by
  simp [conv2dSame, zeroConv]

/-- A zero-parameter pooled linear layer outputs zero on every input. -/
@[simp] theorem linear3_zero {c outF : ℕ} (x : Fin 3 → Fin c → ℝ) (o : Fin outF) :
    linear3 (zeroLinear3 c outF) x o = 0 := by
  simp [linear3, zeroLinear3]

/-- A zero-parameter linear layer outputs zero on every input. -/
@[simp] theorem linear_zero {inF outF : ℕ} (x : Fin inF → ℝ) (o : Fin outF) :
    linear (zeroLinear inF outF) x o = 0 := by
  simp [linear, zeroLinear]

/-- A zero-parameter `ConvAndGPool` outputs zero on every input. -/
@[simp] theorem convAndGPool_zero {h w : ℕ} [NeZero h] [NeZero w]
    (x : Tensor RESIDUAL_INNER_CHANNELS h w) (mask : Fin h → Fin w → ℝ) (ms : ℝ)
    (ch : Fin (RESIDUAL_INNER_CHANNELS - GPOOL_CHANNELS)) (i : Fin h) (j : Fin w) :
    ConvAndGPool.forward zeroConvAndGPool x mask ms ch i j = 0 := by
  simp [ConvAndGPool.forward, zeroConvAndGPool]

/-- A zero-parameter gamma-free unit outputs zero on every input. -/
@[simp] theorem nacNoGamma_zero {h w ci co k : ℕ} (x : Tensor ci h w)
    (mask : Fin h → Fin w → ℝ) (ch : Fin co) (i : Fin h) (j : Fin w) :
    nacNoGamma.forward (zeroNacNoGamma ci co k) x mask ch i j = 0 := by
  simp [nacNoGamma.forward, zeroNacNoGamma]

/-- A zero-parameter gamma-carrying unit outputs zero on every input. -/
@[simp] theorem nacGamma_zero {h w ci co k : ℕ} (x : Tensor ci h w)
    (mask : Fin h → Fin w → ℝ) (ch : Fin co) (i : Fin h) (j : Fin w) :
    nacGamma.forward (zeroNacGamma ci co k) x mask ch i j = 0 := by
  simp [nacGamma.forward, zeroNacGamma]

/-- A zero-parameter inner residual block is the identity. -/
@[simp] theorem innerBlock_zero {h w : ℕ} [NeZero h] [NeZero w] {g : Bool}
    (x : Tensor RESIDUAL_INNER_CHANNELS h w) (mask : Fin h → Fin w → ℝ) (ms : ℝ)
    (ch : Fin RESIDUAL_INNER_CHANNELS) (i : Fin h) (j : Fin w) :
    InnerResidualBlock.forward (zeroInnerBlock g) x mask ms ch i j = x ch i j := by
  simp [InnerResidualBlock.forward, zeroInnerBlock]

/-- A zero-parameter outer residual block is the identity. -/
@[simp] theorem resBlock_zero {h w : ℕ} [NeZero h] [NeZero w] {g : Bool}
    (x : Tensor INNER_CHANNELS h w) (mask : Fin h → Fin w → ℝ) (ms : ℝ)
    (ch : Fin INNER_CHANNELS) (i : Fin h) (j : Fin w) :
    ResidualBlock.forward (zeroResBlock g) x mask ms ch i j = x ch i j := by
  simp [ResidualBlock.forward, zeroResBlock]

/-- A zero-parameter policy head has identically zero pre-masking logits. -/
@[simp] theorem policyLogits_zero {h w : ℕ} [NeZero h] [NeZero w]
    (x : Tensor INNER_CHANNELS h w) (mask : Fin h → Fin w → ℝ) (ms : ℝ)
    (i : Fin h) (j : Fin w) :
    PolicyHead.logits zeroPolicyHead x mask ms i j = 0 := by
  simp [PolicyHead.logits, zeroPolicyHead, NormMask.forward, geluT]

/-! ### Claim theorems -/

/-- C8: for every input tensor and broadcastable binary mask,
`NormMask.forward` returns `(input * gamma + beta) * mask` when the
learned scale `gamma` exists and `(input + beta) * mask` when it does not
(stated as agreement with `normMaskSpec`, the spec's formula), and
consequently the output is exactly zero at every masked (`mask = 0`)
cell, so padding cells carry no bias into subsequent layers. -/
theorem normMask_forward_contract {c h w : ℕ} (p : NormMaskParams c)
    (x : Tensor c h w) (mask : Fin h → Fin w → ℝ) (ch : Fin c) (i : Fin h) (j : Fin w)
    (hm : mask i j = 0) :
    NormMask.forward p x mask = normMaskSpec p.beta p.gamma x mask ∧
    NormMask.forward p x mask ch i j = 0 := by
  constructor
  · funext ch' i' j'
    cases hg : p.gamma <;> simp [NormMask.forward, normMaskSpec, hg]
  · cases hg : p.gamma <;> simp [NormMask.forward, hg, hm]

/-- Witness for C8 at a concrete instance: one channel, a 1×1 grid with
`mask = 0`, input `3` and shift `2`. -/
theorem normMask_forward_contract_witness :
    (NormMask.forward (c := 1) (h := 1) (w := 1) ⟨fun _ => 2, none⟩ (fun _ _ _ => 3)
        (fun _ _ => 0) =
      normMaskSpec (fun _ => 2) none (fun _ _ _ => 3) (fun _ _ => 0)) ∧
    NormMask.forward (c := 1) (h := 1) (w := 1) ⟨fun _ => 2, none⟩ (fun _ _ _ => 3)
        (fun _ _ => 0) 0 0 0 = 0 :=
  normMask_forward_contract ⟨fun _ => 2, none⟩ (fun _ _ _ => 3) (fun _ _ => 0) 0 0 0 rfl

/-- C5: at the calibration points the board-size correction coefficients
take the stated values: at `mask_sum = 784 = 28²` the second pooled term
of `gpool_forward` vanishes and the mean-pool branch is the unaffected
masked mean; at `mask_sum = 361` the value head's quadratic correction
factor equals `0.29`, so the third pooled term is `0.29` times the mean
(all outputs are real numbers, hence finite). -/
theorem gpool_calibration {c h w : ℕ} [NeZero h] [NeZero w]
    (inputs : Tensor c h w) (mask : Fin h → Fin w → ℝ) (ch : Fin c) :
    gpool_forward inputs mask 784 1 ch = 0 ∧
    gpool_forward inputs mask 784 0 ch = layerMean inputs 784 ch ∧
    ValueHead.gpool_value inputs 361 2 ch = layerMean inputs 361 ch * 0.29 := by
  have h784 : Real.sqrt 784 = 28 := by
    rw [show (784 : ℝ) = 28 ^ 2 by norm_num, Real.sqrt_sq (by norm_num)]
  have h361 : Real.sqrt 361 = 19 := by
    rw [show (361 : ℝ) = 19 ^ 2 by norm_num, Real.sqrt_sq (by norm_num)]
  refine ⟨?_, ?_, ?_⟩
  · simp [gpool_forward, h784]
  · simp [gpool_forward]
  · rw [show ValueHead.gpool_value inputs 361 2 ch =
        layerMean inputs 361 ch * ((Real.sqrt 361 - 28) ^ 2 / 100 - 0.52) from rfl, h361]
    norm_num

/-- Witness for C5 at a concrete instance: one channel on a 1×1 grid with
input value `5` and mask `1`. -/
theorem gpool_calibration_witness :
    gpool_forward (c := 1) (h := 1) (w := 1) (fun _ _ _ => 5) (fun _ _ => 1) 784 1 0 = 0 ∧
    gpool_forward (c := 1) (h := 1) (w := 1) (fun _ _ _ => 5) (fun _ _ => 1) 784 0 0 =
      layerMean (c := 1) (h := 1) (w := 1) (fun _ _ _ => 5) 784 0 ∧
    ValueHead.gpool_value (c := 1) (h := 1) (w := 1) (fun _ _ _ => 5) 361 2 0 =
      layerMean (c := 1) (h := 1) (w := 1) (fun _ _ _ => 5) 361 0 * 0.29 :=
  gpool_calibration (fun _ _ _ => 5) (fun _ _ => 1) 0

/-- C9: in the constructed masked network the outer block at 0-based
index `i` carries a gpool path iff `(i + 1)` is divisible by
`GPOOL_EVERY = 2` (so exactly blocks 1 and 3), and inside a block only
the first inner residual block's first `NormActConv` unit ever carries
the gpool branch: the second unit of an inner block and all non-first
inner blocks are always built with `gpool=False`.  (The typed
construction `ResidualBlockParams`/`InnerFirstUnit` additionally forces
`ResidualBlock.forward` to route through `ConvAndGPool.forward` exactly
when the corresponding flag below is `true`.) -/
theorem model_gpool_placement :
    modelGpoolFlags = [false, true, false, true, false] ∧
    (∀ i : Fin RESIDUAL_BLOCKS,
      (modelGpoolFlags.getD i.val false = true ↔ (i.val + 1) % GPOOL_EVERY = 0)) ∧
    blockUnitGpoolFlags true = [[true, false], [false, false]] ∧
    blockUnitGpoolFlags false = [[false, false], [false, false]] := by
  refine ⟨by decide, by decide, by decide, by decide⟩

/-- C7: for every input of trunk width (`INNER_CHANNELS = 192`) and every
supported spatial size in `16..40`, an outer residual block's output
shape equals its input shape (for either gpool flag), and likewise one
iteration of the declarative variant's residual loop preserves the
`(256, h, w)` shape. -/
theorem residual_block_shape_preserved (h w : ℕ) (_h16 : 16 ≤ h) (_h40 : h ≤ 40)
    (_w16 : 16 ≤ w) (_w40 : w ≤ 40) :
    (∀ g : Bool, residualBlockShape g ⟨INNER_CHANNELS, h, w⟩ = some ⟨INNER_CHANNELS, h, w⟩) ∧
    tfResidualBlockShape ⟨256, h, w⟩ = some ⟨256, h, w⟩ := by
  constructor
  · intro g
    cases g <;>
      simp [residualBlockShape, innerResidualShape, nacShape, convAndGPoolShape,
        conv2dSameShape, normMaskShape, innerMid]
  · simp [tfResidualBlockShape, conv2dSameShape]

/-- Witness for C7 at the concrete spatial size 19×19. -/
theorem residual_block_shape_preserved_witness :
    (∀ g : Bool, residualBlockShape g ⟨INNER_CHANNELS, 19, 19⟩ = some ⟨INNER_CHANNELS, 19, 19⟩) ∧
    tfResidualBlockShape ⟨256, 19, 19⟩ = some ⟨256, 19, 19⟩ :=
  residual_block_shape_preserved 19 19 (by norm_num) (by norm_num) (by norm_num) (by norm_num)

/-- C10: `Model.predict` leaves every learnable parameter unchanged and
its only persistent state effect is putting the module in evaluation
mode, while `Model.train_on` puts the module in training mode, mutates
the parameters only through the single `optimizer.step()` (exactly one
`step` event appears in its trace), and surfaces the loss only through
the `print` event (its Python return value is `None`: the embedding
returns no output component). -/
theorem model_predict_trainOn_effects {n h w b : ℕ} [NeZero n] [NeZero h] [NeZero w]
    (s : ModelState n) (inputs : Fin b → Tensor n h w)
    (optStep : ModelParams n → ModelParams n)
    (policies : Fin b → Fin h → Fin w → ℝ) (values : Fin b → ℝ) :
    (Model.predict s inputs).1.params = s.params ∧
    (Model.predict s inputs).1.training = false ∧
    (Model.train_on s optStep inputs policies values).1.training = true ∧
    (Model.train_on s optStep inputs policies values).1.params = optStep s.params ∧
    (Model.train_on s optStep inputs policies values).2 =
      [TrainEvent.print
        (Model.policiesLoss (fun k i j => (Model.forward s.params (inputs k)).1 i j) policies +
          Model.valuesLoss (fun k => (Model.forward s.params (inputs k)).2) values),
       TrainEvent.zeroGrad,
       TrainEvent.backward
        (Model.policiesLoss (fun k i j => (Model.forward s.params (inputs k)).1 i j) policies +
          Model.valuesLoss (fun k => (Model.forward s.params (inputs k)).2) values),
       TrainEvent.step] ∧
    (Model.train_on s optStep inputs policies values).2.countP
      (fun e => TrainEvent.isStep e) = 1 :=
  ⟨rfl, rfl, rfl, rfl, rfl, rfl⟩

/-- Witness for C10 at a concrete instance: the all-zero model on a
single-sample batch of a 1×1 board, with the identity optimizer step. -/
theorem model_predict_trainOn_effects_witness :
    (Model.predict (n := 1) (h := 1) (w := 1) (b := 1)
        ⟨zeroModelParams 1, true⟩ (fun _ => fun _ _ _ => 1)).1.params = zeroModelParams 1 ∧
    (Model.predict (n := 1) (h := 1) (w := 1) (b := 1)
        ⟨zeroModelParams 1, true⟩ (fun _ => fun _ _ _ => 1)).1.training = false ∧
    (Model.train_on (n := 1) (h := 1) (w := 1) (b := 1) ⟨zeroModelParams 1, true⟩ id
        (fun _ => fun _ _ _ => 1) (fun _ _ _ => 0) (fun _ => 0)).1.training = true ∧
    (Model.train_on (n := 1) (h := 1) (w := 1) (b := 1) ⟨zeroModelParams 1, true⟩ id
        (fun _ => fun _ _ _ => 1) (fun _ _ _ => 0) (fun _ => 0)).1.params =
      id (zeroModelParams 1) ∧
    (Model.train_on (n := 1) (h := 1) (w := 1) (b := 1) ⟨zeroModelParams 1, true⟩ id
        (fun _ => fun _ _ _ => 1) (fun _ _ _ => 0) (fun _ => 0)).2 =
      [TrainEvent.print
        (Model.policiesLoss
          (fun (_ : Fin 1) (i j : Fin 1) =>
            (Model.forward (n := 1) (h := 1) (w := 1) (zeroModelParams 1)
              (fun _ _ _ => 1)).1 i j)
          (fun _ _ _ => 0) +
          Model.valuesLoss
            (fun (_ : Fin 1) =>
              (Model.forward (n := 1) (h := 1) (w := 1) (zeroModelParams 1)
                (fun _ _ _ => 1)).2)
            (fun _ => 0)),
       TrainEvent.zeroGrad,
       TrainEvent.backward
        (Model.policiesLoss
          (fun (_ : Fin 1) (i j : Fin 1) =>
            (Model.forward (n := 1) (h := 1) (w := 1) (zeroModelParams 1)
              (fun _ _ _ => 1)).1 i j)
          (fun _ _ _ => 0) +
          Model.valuesLoss
            (fun (_ : Fin 1) =>
              (Model.forward (n := 1) (h := 1) (w := 1) (zeroModelParams 1)
                (fun _ _ _ => 1)).2)
            (fun _ => 0)),
       TrainEvent.step] ∧
    (Model.train_on (n := 1) (h := 1) (w := 1) (b := 1) ⟨zeroModelParams 1, true⟩ id
        (fun _ => fun _ _ _ => 1) (fun _ _ _ => 0) (fun _ => 0)).2.countP
      (fun e => TrainEvent.isStep e) = 1 :=
  model_predict_trainOn_effects ⟨zeroModelParams 1, true⟩ (fun _ => fun _ _ _ => 1) id
    (fun _ _ _ => 0) (fun _ => 0)

/-- C6: in both torch variants the policy loss is the negated sum over
all entries of (target distribution × predicted log-probabilities)
divided by the batch size, the value loss is the sum of squared
differences divided by the batch size, the total loss is their unweighted
sum, and `train_on` zeroes gradients before backpropagating and then
applies exactly one optimizer step.  The code's loss expressions are
stated as equal to `specPolicyLoss`/`specValueLoss`, the spec's per-sample
cross-entropy / squared-error averaged over the batch, and the gradient
discipline as the exact event trace of both `train_on` methods. -/
theorem train_on_loss_contract {n h w b n' h0 w0 b' : ℕ}
    [NeZero n] [NeZero h] [NeZero w]
    (s : ModelState n) (optStep : ModelParams n → ModelParams n)
    (inputs : Fin b → Tensor n h w) (policies : Fin b → Fin h → Fin w → ℝ)
    (values : Fin b → ℝ)
    (p : OppaiNetParams n' h0 w0) (training : Bool)
    (keep1 : Fin b' → Fin linear_first → Bool) (keep2 : Fin b' → Fin linear_second → Bool)
    (optStepO : OppaiNetParams n' h0 w0 → OppaiNetParams n' h0 w0)
    (inputsO : Fin b' → Tensor n' h0 w0) (policiesO : Fin b' → Fin w0 → Fin h0 → ℝ)
    (valuesO : Fin b' → ℝ) :
    (∀ (out_p : Fin b → Fin h → Fin w → ℝ),
      Model.policiesLoss out_p policies = specPolicyLoss policies out_p) ∧
    (∀ (out_v : Fin b → ℝ),
      Model.valuesLoss out_v values = specValueLoss out_v values) ∧
    (∀ (out_pO : Fin b' → Fin w0 → Fin h0 → ℝ),
      loss_policy policiesO out_pO = specPolicyLoss policiesO out_pO) ∧
    (∀ (out_vO : Fin b' → ℝ),
      loss_value valuesO out_vO = specValueLoss out_vO valuesO) ∧
    (Model.train_on s optStep inputs policies values).2 =
      [TrainEvent.print
        (specPolicyLoss policies (fun k i j => (Model.forward s.params (inputs k)).1 i j) +
          specValueLoss (fun k => (Model.forward s.params (inputs k)).2) values),
       TrainEvent.zeroGrad,
       TrainEvent.backward
        (specPolicyLoss policies (fun k i j => (Model.forward s.params (inputs k)).1 i j) +
          specValueLoss (fun k => (Model.forward s.params (inputs k)).2) values),
       TrainEvent.step] ∧
    (OppaiNet.train_on p training keep1 keep2 optStepO inputsO policiesO valuesO).2 =
      [TrainEvent.zeroGrad,
       TrainEvent.backward
        (specPolicyLoss policiesO (OppaiNet.forward p training keep1 keep2 inputsO).1 +
          specValueLoss (OppaiNet.forward p training keep1 keep2 inputsO).2 valuesO),
       TrainEvent.step] := by
  have hp : ∀ (tgt out : Fin b → Fin h → Fin w → ℝ),
      Model.policiesLoss out tgt = specPolicyLoss tgt out := by
    intro tgt out
    rw [Model.policiesLoss, specPolicyLoss, Finset.sum_neg_distrib, neg_div, neg_div]
    congr 1
    refine congrArg (fun r => r / (b : ℝ)) ?_
    exact Finset.sum_congr rfl fun k _ => Finset.sum_congr rfl fun i _ =>
      Finset.sum_congr rfl fun j _ => mul_comm _ _
  have hv : ∀ (out : Fin b → ℝ), Model.valuesLoss out values = specValueLoss out values := by
    intro out
    rw [Model.valuesLoss, specValueLoss]
    refine congrArg (fun r => r / (b : ℝ)) ?_
    exact Finset.sum_congr rfl fun k _ => by ring
  have hpO : ∀ (tgt out : Fin b' → Fin w0 → Fin h0 → ℝ),
      loss_policy tgt out = specPolicyLoss tgt out := by
    intro tgt out
    rw [loss_policy, specPolicyLoss, Finset.sum_neg_distrib, neg_div]
  have hvO : ∀ (tgt out : Fin b' → ℝ), loss_value tgt out = specValueLoss out tgt := by
    intro tgt out
    rw [loss_value, specValueLoss]
    refine congrArg (fun r => r / (b' : ℝ)) ?_
    exact Finset.sum_congr rfl fun k _ => by ring
  refine ⟨fun o => hp policies o, fun o => hv o, fun o => hpO policiesO o,
    fun o => hvO valuesO o, ?_, ?_⟩
  · show [TrainEvent.print (Model.policiesLoss _ policies + Model.valuesLoss _ values),
      TrainEvent.zeroGrad,
      TrainEvent.backward (Model.policiesLoss _ policies + Model.valuesLoss _ values),
      TrainEvent.step] = _
    rw [hp policies, hv]
  · show [TrainEvent.zeroGrad,
      TrainEvent.backward (loss_policy policiesO _ + loss_value valuesO _),
      TrainEvent.step] = _
    rw [hpO policiesO, hvO valuesO]

/-- Witness for C6 at a concrete instance: the all-zero masked model on a
1×1 board and the dropout-counterexample `OppaiNet` parameters on a 5×5
board, each with batch size 1 and the identity optimizer step. -/
theorem train_on_loss_contract_witness :
    (∀ (out_p : Fin 1 → Fin 1 → Fin 1 → ℝ),
      Model.policiesLoss out_p (fun _ _ _ => 0) = specPolicyLoss (fun _ _ _ => 0) out_p) ∧
    (∀ (out_v : Fin 1 → ℝ),
      Model.valuesLoss out_v (fun _ => 0) = specValueLoss out_v (fun _ => 0)) ∧
    (∀ (out_pO : Fin 1 → Fin 5 → Fin 5 → ℝ),
      loss_policy (fun _ _ _ => 0) out_pO = specPolicyLoss (fun _ _ _ => 0) out_pO) ∧
    (∀ (out_vO : Fin 1 → ℝ),
      loss_value (fun _ => 0) out_vO = specValueLoss out_vO (fun _ => 0)) ∧
    (Model.train_on (n := 1) (h := 1) (w := 1) (b := 1) ⟨zeroModelParams 1, true⟩ id
        (fun _ => fun _ _ _ => 1) (fun _ _ _ => 0) (fun _ => 0)).2 =
      [TrainEvent.print
        (specPolicyLoss (fun _ _ _ => 0)
          (fun (_ : Fin 1) (i j : Fin 1) =>
            (Model.forward (n := 1) (h := 1) (w := 1) (zeroModelParams 1)
              (fun _ _ _ => 1)).1 i j) +
          specValueLoss
            (fun (_ : Fin 1) =>
              (Model.forward (n := 1) (h := 1) (w := 1) (zeroModelParams 1)
                (fun _ _ _ => 1)).2)
            (fun _ => 0)),
       TrainEvent.zeroGrad,
       TrainEvent.backward
        (specPolicyLoss (fun _ _ _ => 0)
          (fun (_ : Fin 1) (i j : Fin 1) =>
            (Model.forward (n := 1) (h := 1) (w := 1) (zeroModelParams 1)
              (fun _ _ _ => 1)).1 i j) +
          specValueLoss
            (fun (_ : Fin 1) =>
              (Model.forward (n := 1) (h := 1) (w := 1) (zeroModelParams 1)
                (fun _ _ _ => 1)).2)
            (fun _ => 0)),
       TrainEvent.step] ∧
    (OppaiNet.train_on (b := 1) oppaiWitnessParams true (fun _ _ => true) (fun _ _ => true)
        id (fun _ => fun _ _ _ => 0) (fun _ _ _ => 0) (fun _ => 0)).2 =
      [TrainEvent.zeroGrad,
       TrainEvent.backward
        (specPolicyLoss (fun _ _ _ => 0)
          (OppaiNet.forward (b := 1) oppaiWitnessParams true (fun _ _ => true)
            (fun _ _ => true) (fun _ => fun _ _ _ => 0)).1 +
          specValueLoss
            (OppaiNet.forward (b := 1) oppaiWitnessParams true (fun _ _ => true)
              (fun _ _ => true) (fun _ => fun _ _ _ => 0)).2
            (fun _ => 0)),
       TrainEvent.step] :=
  train_on_loss_contract ⟨zeroModelParams 1, true⟩ id (fun _ => fun _ _ _ => 1)
    (fun _ _ _ => 0) (fun _ => 0) oppaiWitnessParams true (fun _ _ => true)
    (fun _ _ => true) id (fun _ => fun _ _ _ => 0) (fun _ _ _ => 0) (fun _ => 0)

/-- C3: for every input the value output of the forward pass lies
strictly within the open interval `(-1, 1)` in both torch variants,
being the image of a (finite) real number under `tanh`. -/
theorem value_output_in_Ioo {n h w : ℕ} [NeZero n] [NeZero h] [NeZero w]
    {n' h0 w0 b : ℕ} (m : ModelParams n) (x : Tensor n h w)
    (p : OppaiNetParams n' h0 w0) (training : Bool)
    (keep1 : Fin b → Fin linear_first → Bool) (keep2 : Fin b → Fin linear_second → Bool)
    (inputs : Fin b → Tensor n' h0 w0) (k : Fin b) :
    (-1 < (Model.forward m x).2 ∧ (Model.forward m x).2 < 1) ∧
    (-1 < (OppaiNet.forward p training keep1 keep2 inputs).2 k ∧
      (OppaiNet.forward p training keep1 keep2 inputs).2 k < 1) := by
  constructor
  · show -1 < Real.tanh _ ∧ Real.tanh _ < 1
    exact tanh_mem_Ioo _
  · show -1 < Real.tanh _ ∧ Real.tanh _ < 1
    exact tanh_mem_Ioo _

/-- Witness for C3 at a concrete instance: the all-zero masked model on a
1×1 board and the dropout-counterexample `OppaiNet` parameters on a 5×5
board with an all-ones keep-mask, at batch sample 0. -/
theorem value_output_in_Ioo_witness :
    (-1 < (Model.forward (n := 1) (h := 1) (w := 1) (zeroModelParams 1)
        (fun _ _ _ => 1)).2 ∧
      (Model.forward (n := 1) (h := 1) (w := 1) (zeroModelParams 1) (fun _ _ _ => 1)).2 < 1) ∧
    (-1 < (OppaiNet.forward (b := 1) oppaiWitnessParams true (fun _ _ => true)
        (fun _ _ => true) (fun _ => fun _ _ _ => 0)).2 0 ∧
      (OppaiNet.forward (b := 1) oppaiWitnessParams true (fun _ _ => true)
        (fun _ _ => true) (fun _ => fun _ _ _ => 0)).2 0 < 1) :=
  value_output_in_Ioo (zeroModelParams 1) (fun _ _ _ => 1) oppaiWitnessParams true
    (fun _ _ => true) (fun _ _ => true) (fun _ => fun _ _ _ => 0) 0

/-- C4: in the global-pooling max branch, adding `(mask - 1)` to the
features before the spatial max forces masked-out cells below every legal
cell: for features produced as in `ConvAndGPool.forward` by GELU after a
gamma-free `NormMask` (so they are exactly zero at masked cells), with a
binary mask having at least one legal cell and GELU outputs above `-1` at
legal cells, the pooled max of `gpool_forward` is attained at a legal
cell, and every padding cell's contending value lies strictly below it. -/
theorem gpool_max_attained_at_legal {c h w : ℕ} [NeZero h] [NeZero w]
    (beta : Fin c → ℝ) (y : Tensor c h w) (mask : Fin h → Fin w → ℝ) (ms : ℝ)
    (hbin : ∀ i j, mask i j = 0 ∨ mask i j = 1)
    (i0 : Fin h) (j0 : Fin w) (hleg : mask i0 j0 = 1)
    (hgt : ∀ ch i j, mask i j = 1 →
      -1 < geluT (NormMask.forward ⟨beta, none⟩ y mask) ch i j) (ch : Fin c) :
    ∃ i j, mask i j = 1 ∧
      gpool_forward (geluT (NormMask.forward ⟨beta, none⟩ y mask)) mask ms 2 ch =
        geluT (NormMask.forward ⟨beta, none⟩ y mask) ch i j ∧
      ∀ i' j', mask i' j' = 0 →
        geluT (NormMask.forward ⟨beta, none⟩ y mask) ch i' j' + (mask i' j' - 1) <
          gpool_forward (geluT (NormMask.forward ⟨beta, none⟩ y mask)) mask ms 2 ch := by
  set f := geluT (NormMask.forward ⟨beta, none⟩ y mask) with hf
  have hf0 : ∀ ch' (i : Fin h) (j : Fin w), mask i j = 0 → f ch' i j = 0 := by
    intro ch' i j hm
    simp [hf, geluT, NormMask.forward, hm]
  have hpool : gpool_forward f mask ms 2 ch = layerMax f mask ch := by
    simp [gpool_forward]
  obtain ⟨q, -, hmax⟩ := Finset.exists_mem_eq_sup'
    (Finset.univ_nonempty (α := Fin h × Fin w))
    (fun p : Fin h × Fin w => f ch p.1 p.2 + (mask p.1 p.2 - 1))
  have hlow : f ch i0 j0 + (mask i0 j0 - 1) ≤ layerMax f mask ch :=
    Finset.le_sup' (fun p : Fin h × Fin w => f ch p.1 p.2 + (mask p.1 p.2 - 1))
      (Finset.mem_univ (i0, j0))
  have hgt0 : -1 < layerMax f mask ch := by
    have h1 := hgt ch i0 j0 hleg
    rw [hleg] at hlow
    linarith
  rcases hbin q.1 q.2 with hq0 | hq1
  · exfalso
    have : layerMax f mask ch = -1 := by
      rw [layerMax, hmax, hf0 ch q.1 q.2 hq0, hq0]
      ring
    linarith
  · refine ⟨q.1, q.2, hq1, ?_, ?_⟩
    · rw [hpool]
      rw [layerMax, hmax, hq1]
      ring
    · intro i' j' hm'
      rw [hpool, hf0 ch i' j' hm', hm']
      have : (0 : ℝ) + (0 - 1) = -1 := by ring
      rw [this]
      exact hgt0

/-- Witness for C4 at a concrete instance: one channel on a 1×1 board
with an all-ones mask, zero shift and zero pre-activation input. -/
theorem gpool_max_attained_at_legal_witness :
    ∃ (i j : Fin 1), (fun (_ : Fin 1) (_ : Fin 1) => (1 : ℝ)) i j = 1 ∧
      gpool_forward
          (geluT (NormMask.forward (c := 1) (h := 1) (w := 1) ⟨fun _ => 0, none⟩ (fun _ _ _ => 0)
            (fun _ _ => 1)))
          (fun _ _ => 1) 1 2 0 =
        geluT (NormMask.forward (c := 1) (h := 1) (w := 1) ⟨fun _ => 0, none⟩ (fun _ _ _ => 0)
          (fun _ _ => 1)) 0 i j ∧
      ∀ (i' j' : Fin 1), (fun (_ : Fin 1) (_ : Fin 1) => (1 : ℝ)) i' j' = 0 →
        geluT (NormMask.forward (c := 1) (h := 1) (w := 1) ⟨fun _ => 0, none⟩ (fun _ _ _ => 0)
            (fun _ _ => 1)) 0 i' j' + ((fun (_ : Fin 1) (_ : Fin 1) => (1 : ℝ)) i' j' - 1) <
          gpool_forward
            (geluT (NormMask.forward (c := 1) (h := 1) (w := 1) ⟨fun _ => 0, none⟩ (fun _ _ _ => 0)
              (fun _ _ => 1)))
            (fun _ _ => 1) 1 2 0 :=
  gpool_max_attained_at_legal (fun _ => 0) (fun _ _ _ => 0) (fun _ _ => 1) 1
    (fun _ _ => Or.inr rfl) 0 0 rfl
    (fun ch i j _ => by simp [geluT, NormMask.forward]) 0

/-- C2: for every input board, the policy returned by `Model.predict` is
a per-sample probability distribution over the `h × w` cells — every
entry is (strictly) positive and the entries sum to 1 — obtained by
subtracting `5000 * (1 - mask)` from the single-channel logits and
exponentiating the flattened log-softmax; and whenever the pre-masking
logits are bounded by `B` in absolute value and some legal (`mask = 1`)
cell exists, every illegal (`mask = 0`) cell receives probability mass at
most `exp (2B - 5000)` (an epsilon that vanishes for any realistic
logit bound, e.g. `e⁻³⁰⁰⁰` at `B = 1000`; over `ℝ` all outputs are
finite). -/
theorem model_predict_policy_distribution {n h w b : ℕ} [NeZero n] [NeZero h] [NeZero w]
    (s : ModelState n) (inputs : Fin b → Tensor n h w) (k : Fin b) (B : ℝ)
    (hB : ∀ i j, |Model.policyRawLogits s.params (inputs k) i j| ≤ B)
    (i0 : Fin h) (j0 : Fin w) (hleg : Model.maskOf (inputs k) i0 j0 = 1) :
    (∀ i j, 0 < (Model.predict s inputs).2.1 k i j) ∧
    (∑ i, ∑ j, (Model.predict s inputs).2.1 k i j = 1) ∧
    (∀ i j, Model.maskOf (inputs k) i j = 0 →
      (Model.predict s inputs).2.1 k i j ≤ Real.exp (2 * B - 5000)) := by
  obtain ⟨kpos, ksum, kle⟩ := logSoftmax_facts
    (fun i j => Model.policyRawLogits s.params (inputs k) i j -
      (1 - Model.maskOf (inputs k) i j) * 5000)
  refine ⟨fun i j => kpos i j, ksum, ?_⟩
  intro i j hm
  have h1 := kle i j i0 j0
  have hz1 : Model.policyRawLogits s.params (inputs k) i j -
      (1 - Model.maskOf (inputs k) i j) * 5000 -
      (Model.policyRawLogits s.params (inputs k) i0 j0 -
        (1 - Model.maskOf (inputs k) i0 j0) * 5000) ≤ 2 * B - 5000 := by
    have hb1 := hB i j
    have hb2 := hB i0 j0
    rw [abs_le] at hb1 hb2
    rw [hm, hleg]
    linarith
  exact le_trans h1 (Real.exp_le_exp.mpr hz1)

/-- Witness for C2 at a concrete instance: the all-zero model on a fully
legal 1×1 board (the zero policy head makes every pre-masking logit zero,
so the bound `B = 0` holds). -/
theorem model_predict_policy_distribution_witness :
    (∀ (i j : Fin 1), 0 < (Model.predict (n := 1) (h := 1) (w := 1) (b := 1)
        ⟨zeroModelParams 1, true⟩ (fun _ => fun _ _ _ => 1)).2.1 0 i j) ∧
    (∑ i : Fin 1, ∑ j : Fin 1, (Model.predict (n := 1) (h := 1) (w := 1) (b := 1)
        ⟨zeroModelParams 1, true⟩ (fun _ => fun _ _ _ => 1)).2.1 0 i j = 1) ∧
    (∀ (i j : Fin 1), Model.maskOf (n := 1) (h := 1) (w := 1)
        ((fun (_ : Fin 1) => fun (_ : Fin 1) (_ : Fin 1) (_ : Fin 1) => (1 : ℝ)) 0) i j = 0 →
      (Model.predict (n := 1) (h := 1) (w := 1) (b := 1)
        ⟨zeroModelParams 1, true⟩ (fun _ => fun _ _ _ => 1)).2.1 0 i j ≤
        Real.exp (2 * 0 - 5000)) :=
  model_predict_policy_distribution ⟨zeroModelParams 1, true⟩ (fun _ => fun _ _ _ => 1) 0 0
    (fun i j => by
      rw [show Model.policyRawLogits (n := 1) (h := 1) (w := 1)
          (ModelState.params ⟨zeroModelParams 1, true⟩) (fun _ _ _ => 1) i j =
          PolicyHead.logits zeroPolicyHead
            (Model.trunkOut (zeroModelParams 1) (fun _ _ _ => 1))
            (Model.maskOf (fun _ _ _ => 1)) (Model.maskSum (fun _ _ _ => 1)) i j from rfl]
      rw [policyLogits_zero]
      norm_num)
    0 0 rfl

/-- A 1d batch-norm whose `gamma` is identically zero outputs its `beta`
identically, in both training and evaluation mode. -/
theorem bn1d_gamma_zero {f b : ℕ} (training : Bool) (beta rm rv : Fin f → ℝ)
    (x : Fin b → Fin f → ℝ) (k : Fin b) (i : Fin f) :
    batchNorm1d training ⟨fun _ => 0, beta, rm, rv⟩ x k i = beta i := by
  cases training <;> simp [batchNorm1d]

/-- On the dropout-counterexample parameters, the value output of
`OppaiNet.forward` is `tanh (1 / (1 - 0.3))` when the second dropout mask
keeps feature 0 of the sample and `tanh 0` otherwise — in either
batch-norm mode, for any input and any first dropout mask. -/
theorem oppaiWitness_value (training : Bool) (keep1 : Fin 1 → Fin linear_first → Bool)
    (keep2 : Fin 1 → Fin linear_second → Bool) (x : Fin 1 → Tensor 1 5 5) (k : Fin 1) :
    (OppaiNet.forward oppaiWitnessParams training keep1 keep2 x).2 k =
      Real.tanh (if keep2 k 0 then 10 / 7 else 0) := by
  simp only [OppaiNet.forward, oppaiWitnessParams]
  congr 1
  simp only [linear, dropout, reluBV, bn1d_gamma_zero]
  simp [relu]
  rw [Finset.sum_eq_single (0 : Fin linear_second) (fun b _ hb => by simp [hb])
      (fun h => absurd (Finset.mem_univ _) h)]
  split <;> rename_i hk <;> norm_num [hk]

/-- C1 (counterevidence): `OppaiNet.predict` is stochastic.  Because the
method never calls `self.eval()` and `F.dropout`'s `training` argument is
left at its default `True`, the dropout masks reach the forward pass even
with the module in evaluation mode (`training = false` below): there are
parameters, an input, and two dropout-mask draws with which two calls of
`predict` on the same input return different outputs.  (`Model.predict`
of the masked variant, by contrast, calls `self.eval()` and has no
dropout, so the claim's intent holds there.) -/
theorem oppaiNet_predict_not_deterministic :
    ∃ (p : OppaiNetParams 1 5 5) (training : Bool) (x : Fin 1 → Tensor 1 5 5)
      (keep1 keep1' : Fin 1 → Fin linear_first → Bool)
      (keep2 keep2' : Fin 1 → Fin linear_second → Bool),
      OppaiNet.predict p training keep1 keep2 x ≠
        OppaiNet.predict p training keep1' keep2' x := by
  refine ⟨oppaiWitnessParams, false, fun _ => fun _ _ _ => 0, fun _ _ => true,
    fun _ _ => true, fun _ _ => true, fun _ _ => false, ?_⟩
  intro hEq
  have h2 := congrArg
    (fun r : (Fin 1 → Fin 5 → Fin 5 → ℝ) × (Fin 1 → ℝ) => r.2 (0 : Fin 1)) hEq
  have ha : (OppaiNet.predict (b := 1) oppaiWitnessParams false (fun _ _ => true) (fun _ _ => true)
      (fun _ => fun _ _ _ => 0)).2 0 = Real.tanh (10 / 7) := by
    rw [show (OppaiNet.predict (b := 1) oppaiWitnessParams false (fun _ _ => true)
        (fun _ _ => true) (fun _ => fun _ _ _ => 0)).2 0 =
        (OppaiNet.forward (b := 1) oppaiWitnessParams false (fun _ _ => true) (fun _ _ => true)
          (fun _ => fun _ _ _ => 0)).2 0 from rfl]
    rw [oppaiWitness_value]
    simp
  have hb : (OppaiNet.predict (b := 1) oppaiWitnessParams false (fun _ _ => true) (fun _ _ => false)
      (fun _ => fun _ _ _ => 0)).2 0 = Real.tanh 0 := by
    rw [show (OppaiNet.predict (b := 1) oppaiWitnessParams false (fun _ _ => true)
        (fun _ _ => false) (fun _ => fun _ _ _ => 0)).2 0 =
        (OppaiNet.forward (b := 1) oppaiWitnessParams false (fun _ _ => true) (fun _ _ => false)
          (fun _ => fun _ _ _ => 0)).2 0 from rfl]
    rw [oppaiWitness_value]
    simp
  have hc : Real.tanh (10 / 7) = Real.tanh 0 := by
    rw [← ha, ← hb]
    exact h2
  have hd : 0 < Real.tanh (10 / 7) := tanh_pos (by norm_num)
  rw [hc, Real.tanh_zero] at hd
  exact lt_irrefl 0 hd
